import Mathlib

/-!
# Verification of the wp-quiz-forge resilience and caching layer

Shallow embedding of the client-side resilience/caching subsystem of the
repository (src/services/aiService.ts, src/services/persistenceService.ts,
src/context/AppContext.tsx), together with proofs and refutations of the
specification's claims about it.

Conventions of the embedding:
* JavaScript strings are Lean `String`s; `charCodeAt` is `Char.toNat`
  (identical for basic-multilingual-plane text, which is all the witnesses use).
* JavaScript 32-bit integer coercion (`x & x`, `x << 5`) is modelled on `Int`
  with explicit reduction into `[-2^31, 2^31)`.
* `Date.now()` values and timestamps are `Int` parameters.
* JavaScript `Map` is an insertion-ordered association list, as iteration
  order matters for the LRU cache.
-/

/-- JavaScript `ToInt32`: reduce an integer into `[-2^31, 2^31)` modulo `2^32`.
This is what `hash & hash` performs in the source. -/
def toInt32 (x : Int) : Int :=
  (x + 2 ^ 31) % 2 ^ 32 - 2 ^ 31

/-- One step of the rolling hash used by both `LRUCache.hash`
(src/services/aiService.ts:86-94) and `computeChecksum`
(src/services/persistenceService.ts:101-110):
`hash = ((hash << 5) - hash) + char; hash = hash & hash`.
`hash << 5` is itself a 32-bit operation in JavaScript. -/
def jsHashStep (h : Int) (c : Nat) : Int :=
  toInt32 (toInt32 (32 * h) - h + c)

/-- Fold the rolling hash over a list of UTF-16 code units. -/
def jsHashFold (cs : List Char) (h : Int) : Int :=
  cs.foldl (fun a c => jsHashStep a c.toNat) h

/-- The base-36 digit characters used by JavaScript `Number.prototype.toString(36)`:
`0`-`9` then `a`-`z`. -/
def digitChar36 (d : Nat) : Char :=
  if d < 10 then Char.ofNat (48 + d) else Char.ofNat (87 + d)

/-- Left inverse of `digitChar36` on digits below 36. -/
def char36Val (c : Char) : Nat :=
  if 87 ≤ c.toNat then c.toNat - 87 else c.toNat - 48

/-- Fuel-driven most-significant-first base-36 digit emitter. -/
def to36Aux : Nat → Nat → List Char → List Char
  | 0, _, acc => acc
  | fuel + 1, n, acc =>
    let acc' := digitChar36 (n % 36) :: acc
    if n / 36 = 0 then acc' else to36Aux fuel (n / 36) acc'

/-- Base-36 rendering of a natural number, most significant digit first. -/
def natTo36 (n : Nat) : List Char :=
  to36Aux (n + 1) n []

/-- JavaScript `i.toString(36)` for an integer `i`. -/
def toString36 (i : Int) : String :=
  if i < 0 then ⟨'-' :: natTo36 i.natAbs⟩ else ⟨natTo36 i.toNat⟩

/-- Recursive specification of base-36 digits, used to reason about `to36Aux`. -/
def to36Spec (n : Nat) : List Char :=
  if h : n < 36 then [digitChar36 n]
  else to36Spec (n / 36) ++ [digitChar36 (n % 36)]
  decreasing_by
    exact Nat.div_lt_self (by omega) (by omega)

theorem to36Aux_eq_spec (fuel n : Nat) (acc : List Char) (h : n < fuel) :
    to36Aux fuel n acc = to36Spec n ++ acc := by
  induction fuel generalizing n acc with
  | zero => omega
  | succ f ih =>
    by_cases h36 : n < 36
    · have hdiv : n / 36 = 0 := Nat.div_eq_of_lt h36
      have hmod : n % 36 = n := Nat.mod_eq_of_lt h36
      rw [to36Spec]
      simp [to36Aux, hdiv, hmod, h36]
    · have hne : n / 36 ≠ 0 := by
        intro hz
        have := (Nat.div_eq_zero_iff (show 0 < 36 by omega)).mp hz
        omega
      have hlt : n / 36 < f := by
        have h1 : n / 36 < n := Nat.div_lt_self (by omega) (by omega)
        omega
      rw [to36Spec]
      simp only [to36Aux, hne, if_neg hne, dif_neg h36]
      rw [ih (n / 36) _ hlt]
      simp

theorem char36Val_digitChar36 (d : Nat) (h : d < 36) :
    char36Val (digitChar36 d) = d := by
  interval_cases d <;> decide

/-- Evaluate a most-significant-first base-36 digit list. -/
def val36From (a : Nat) (cs : List Char) : Nat :=
  cs.foldl (fun acc c => 36 * acc + char36Val c) a

theorem val36From_append (a : Nat) (l₁ l₂ : List Char) :
    val36From a (l₁ ++ l₂) = val36From (val36From a l₁) l₂ := by
  simp [val36From, List.foldl_append]

theorem val36From_to36Spec (n : Nat) : ∀ a, val36From a (to36Spec n) = a * 36 ^ (to36Spec n).length + n := by
  induction n using Nat.strong_induction_on with
  | _ n ih =>
    intro a
    by_cases h : n < 36
    · rw [to36Spec]
      simp [h, val36From, char36Val_digitChar36 n h]
      ring
    · rw [to36Spec]
      simp only [dif_neg h]
      rw [val36From_append]
      have hlt : n / 36 < n := Nat.div_lt_self (by omega) (by omega)
      rw [ih (n / 36) hlt a]
      have hmod : n % 36 < 36 := Nat.mod_lt _ (by omega)
      simp [val36From, char36Val_digitChar36 _ hmod, List.length_append]
      rw [Nat.mul_add, Nat.mul_comm 36 (a * 36 ^ (to36Spec (n / 36)).length)]
      rw [Nat.pow_succ]
      have := Nat.div_add_mod n 36
      ring_nf
      omega

theorem to36Spec_injective : Function.Injective to36Spec := by
  intro n m h
  have hn := val36From_to36Spec n 0
  have hm := val36From_to36Spec m 0
  rw [h] at hn
  simp at hn hm
  omega

theorem natTo36_injective : Function.Injective natTo36 := by
  intro n m h
  unfold natTo36 at h
  rw [to36Aux_eq_spec _ _ _ (Nat.lt_succ_self n),
      to36Aux_eq_spec _ _ _ (Nat.lt_succ_self m)] at h
  simp at h
  exact to36Spec_injective h

theorem mem_to36Spec_isDigit (n : Nat) :
    ∀ c ∈ to36Spec n, ∃ d, d < 36 ∧ c = digitChar36 d := by
  induction n using Nat.strong_induction_on with
  | _ n ih =>
    by_cases h : n < 36
    · rw [to36Spec]
      simp [h]
      exact ⟨n, h, rfl⟩
    · rw [to36Spec]
      simp only [dif_neg h]
      intro c hc
      rcases List.mem_append.mp hc with h1 | h2
      · exact ih (n / 36) (Nat.div_lt_self (by omega) (by omega)) c h1
      · simp at h2
        exact ⟨n % 36, Nat.mod_lt _ (by omega), h2⟩

theorem digitChar36_ne_dash (d : Nat) (h : d < 36) : digitChar36 d ≠ '-' := by
  interval_cases d <;> decide

theorem to36Spec_ne_nil (n : Nat) : to36Spec n ≠ [] := by
  rw [to36Spec]
  by_cases h : n < 36 <;> simp [h]

theorem natTo36_ne_nil (n : Nat) : natTo36 n ≠ [] := by
  unfold natTo36
  rw [to36Aux_eq_spec _ _ _ (Nat.lt_succ_self n)]
  simp [to36Spec_ne_nil]

theorem dash_not_mem_natTo36 (n : Nat) : '-' ∉ natTo36 n := by
  unfold natTo36
  rw [to36Aux_eq_spec _ _ _ (Nat.lt_succ_self n)]
  simp only [List.append_nil]
  intro hmem
  obtain ⟨d, hd, hc⟩ := mem_to36Spec_isDigit n '-' hmem
  exact digitChar36_ne_dash d hd hc.symm

theorem toString36_injective : Function.Injective toString36 := by
  intro i j h
  unfold toString36 at h
  by_cases hi : i < 0 <;> by_cases hj : j < 0 <;> simp only [hi, hj, if_pos, if_neg,
    if_true, if_false, ite_true, ite_false] at h <;> injection h with h
  · have : i.natAbs = j.natAbs := natTo36_injective (List.cons.inj h).2
    omega
  · exfalso
    have : '-' ∈ natTo36 j.toNat := by
      rw [← h]; exact List.mem_cons_self _ _
    exact dash_not_mem_natTo36 _ this
  · exfalso
    have : '-' ∈ natTo36 i.toNat := by
      rw [h]; exact List.mem_cons_self _ _
    exact dash_not_mem_natTo36 _ this
  · have : i.toNat = j.toNat := natTo36_injective h
    omega

/-! ### Sensitivity of the rolling hash

The rolling hash is, modulo `2^32`, the polynomial `Σ cᵢ · 31^(n-1-i)`.
Since `31` is a unit modulo `2^32` and code units are below `2^32`, changing a
single code unit always changes the hash. -/

/-- The rolling hash viewed in `ZMod (2^32)`. -/
def hashZ (cs : List Char) (h : ZMod (2 ^ 32)) : ZMod (2 ^ 32) :=
  cs.foldl (fun a c => 31 * a + (c.toNat : ZMod (2 ^ 32))) h

theorem intCast_emod_zmod (a : Int) (n : Nat) :
    (((a % (n : Int)) : Int) : ZMod n) = (a : ZMod n) := by
  rw [ZMod.intCast_eq_intCast_iff]
  exact Int.emod_emod_of_dvd a dvd_rfl

theorem toInt32_cast (x : Int) :
    ((toInt32 x : Int) : ZMod (2 ^ 32)) = (x : ZMod (2 ^ 32)) := by
  unfold toInt32
  have h1 : (((x + 2 ^ 31) % ((2 ^ 32 : Nat) : Int) : Int) : ZMod (2 ^ 32))
      = ((x + 2 ^ 31 : Int) : ZMod (2 ^ 32)) := intCast_emod_zmod _ _
  push_cast at h1 ⊢
  rw [h1]
  ring

theorem jsHashStep_cast (h : Int) (c : Nat) :
    ((jsHashStep h c : Int) : ZMod (2 ^ 32)) = 31 * (h : ZMod (2 ^ 32)) + (c : ZMod (2 ^ 32)) := by
  unfold jsHashStep
  rw [toInt32_cast]
  push_cast
  rw [toInt32_cast]
  push_cast
  ring

theorem jsHashFold_cast (cs : List Char) (h : Int) :
    ((jsHashFold cs h : Int) : ZMod (2 ^ 32)) = hashZ cs (h : ZMod (2 ^ 32)) := by
  induction cs generalizing h with
  | nil => rfl
  | cons c cs ih =>
    show ((jsHashFold cs (jsHashStep h c.toNat) : Int) : ZMod (2 ^ 32)) = _
    rw [ih, jsHashStep_cast]
    rfl

theorem hashZ_sub (cs : List Char) (a b : ZMod (2 ^ 32)) :
    hashZ cs a - hashZ cs b = 31 ^ cs.length * (a - b) := by
  induction cs generalizing a b with
  | nil => simp [hashZ]
  | cons c cs ih =>
    show hashZ cs (31 * a + c.toNat) - hashZ cs (31 * b + c.toNat) = _
    rw [ih]
    simp only [List.length_cons, pow_succ]
    ring

theorem isUnit_31_zmod : IsUnit (31 : ZMod (2 ^ 32)) := by
  haveI : NeZero ((2 : Nat) ^ 32) := ⟨by positivity⟩
  have h := (ZMod.isUnit_iff_coprime 31 (2 ^ 32)).mpr
    (Nat.Coprime.pow_right 32 (by norm_num))
  simpa using h

theorem charCast_injective (c c' : Char) (hne : c ≠ c') :
    (c.toNat : ZMod (2 ^ 32)) ≠ (c'.toNat : ZMod (2 ^ 32)) := by
  intro h
  apply hne
  have hc : c.toNat < 2 ^ 32 := c.val.toBitVec.isLt
  have hc' : c'.toNat < 2 ^ 32 := c'.val.toBitVec.isLt
  have hval : c.toNat = c'.toNat := by
    have h1 := congrArg ZMod.val h
    rwa [ZMod.val_natCast, ZMod.val_natCast, Nat.mod_eq_of_lt hc, Nat.mod_eq_of_lt hc'] at h1
  exact Char.eq_of_val_eq (UInt32.eq_of_toBitVec_eq (BitVec.eq_of_toNat_eq hval))

/-- Changing a single UTF-16 code unit anywhere in a string changes the value of
the JavaScript rolling hash. -/
theorem jsHashFold_single_change (xs zs : List Char) (c c' : Char) (hne : c ≠ c') :
    jsHashFold (xs ++ c :: zs) 0 ≠ jsHashFold (xs ++ c' :: zs) 0 := by
  intro h
  have hcast : hashZ (xs ++ c :: zs) ((0 : Int) : ZMod (2 ^ 32))
      = hashZ (xs ++ c' :: zs) ((0 : Int) : ZMod (2 ^ 32)) := by
    rw [← jsHashFold_cast, ← jsHashFold_cast, h]
  have happ : ∀ d : Char, hashZ (xs ++ d :: zs) ((0 : Int) : ZMod (2 ^ 32))
      = hashZ zs (31 * hashZ xs ((0 : Int) : ZMod (2 ^ 32)) + d.toNat) := by
    intro d
    unfold hashZ
    rw [List.foldl_append]
    rfl
  rw [happ, happ] at hcast
  have hsub := sub_eq_zero_of_eq hcast
  rw [hashZ_sub] at hsub
  have hunit : IsUnit ((31 : ZMod (2 ^ 32)) ^ zs.length) := isUnit_31_zmod.pow _
  rw [hunit.mul_right_eq_zero] at hsub
  have h2 : (c.toNat : ZMod (2 ^ 32)) = (c'.toNat : ZMod (2 ^ 32)) := by
    have h3 : (c.toNat : ZMod (2 ^ 32)) - (c'.toNat : ZMod (2 ^ 32)) = 0 := by
      linear_combination hsub
    exact sub_eq_zero.mp h3
  exact charCast_injective c c' hne h2

/-! ### Insertion-ordered association lists (JavaScript `Map`) -/

/-- `Map.get` / `Map.has` style lookup. -/
def assocFind {K V : Type} [DecidableEq K] (m : List (K × V)) (k : K) : Option V :=
  (m.find? fun p => decide (p.1 = k)).map (·.2)

/-- `Map.has`. -/
def assocHas {K V : Type} [DecidableEq K] (m : List (K × V)) (k : K) : Bool :=
  m.any fun p => decide (p.1 = k)

/-- `Map.set`: replace in place when the key is present (preserving its
position in iteration order), otherwise append at the end. -/
def assocSet {K V : Type} [DecidableEq K] (m : List (K × V)) (k : K) (v : V) : List (K × V) :=
  if assocHas m k then m.map (fun p => if p.1 = k then (k, v) else p)
  else m ++ [(k, v)]

/-- `Map.delete`. -/
def assocDelete {K V : Type} [DecidableEq K] (m : List (K × V)) (k : K) : List (K × V) :=
  m.filter fun p => !(decide (p.1 = k))

theorem assocFind_set {K V : Type} [DecidableEq K] (m : List (K × V)) (k : K) (v : V) :
    assocFind (assocSet m k v) k = some v := by
  unfold assocSet
  by_cases h : assocHas m k
  · simp only [h, if_true]
    induction m with
    | nil => simp [assocHas] at h
    | cons p m ih =>
      by_cases hp : p.1 = k
      · simp [assocFind, List.find?, hp]
      · have h' : assocHas m k := by simpa [assocHas, hp] using h
        have := ih h'
        simpa [assocFind, List.find?, hp] using this
  · simp only [h, if_false]
    induction m with
    | nil => simp [assocFind, List.find?]
    | cons p m ih =>
      have hp : ¬(p.1 = k) := by
        intro hk
        exact h (by simp [assocHas, hk])
      have h' : ¬(assocHas m k = true) := by
        intro hk
        exact h (by simp [assocHas] at hk ⊢; right; exact (by simpa [assocHas] using hk))
      simpa [assocFind, List.find?, hp] using ih h'

/-! ### The LRU cache (src/services/aiService.ts:69-142) -/

/-- `CacheEntry<T>` (src/services/aiService.ts:69-74). -/
structure CacheEntry (V : Type) where
  value : V
  timestamp : Int
  contentHash : String
  accessCount : Nat
deriving DecidableEq

/-- `LRUCache<T>` (src/services/aiService.ts:76-139): an insertion-ordered map
plus the two constructor parameters. -/
structure LRUCache (V : Type) where
  entries : List (String × CacheEntry V)
  maxSize : Nat
  ttlMs : Int
deriving DecidableEq

/-- `LRUCache.hash` (src/services/aiService.ts:86-94): rolling hash of the
first 1000 code units, rendered in base 36. -/
def lruHash (content : String) : String :=
  toString36 (jsHashFold (content.data.take 1000) 0)

/-- `LRUCache.get` (src/services/aiService.ts:96-113). Returns the result and
the updated cache. `contentForValidation && ...` is falsy when the argument is
absent or the empty string. -/
def cacheGet {V : Type} (cache : LRUCache V) (key : String) (now : Int)
    (contentForValidation : Option String) : Option V × LRUCache V :=
  match assocFind cache.entries key with
  | none => (none, cache)
  | some entry =>
    let isExpired := decide (now - entry.timestamp > cache.ttlMs)
    let isContentChanged :=
      match contentForValidation with
      | none => false
      | some c => decide (c ≠ "") && decide (lruHash c ≠ entry.contentHash)
    if isExpired || isContentChanged then
      (none, { cache with entries := assocDelete cache.entries key })
    else
      let entry' := { entry with accessCount := entry.accessCount + 1 }
      (some entry.value,
        { cache with entries := assocDelete cache.entries key ++ [(key, entry')] })

/-- `LRUCache.set` (src/services/aiService.ts:115-128). Evicts the first
(least recently used) key when at capacity; `if (firstKey)` skips the eviction
when that key is the (falsy) empty string. -/
def cacheSet {V : Type} (cache : LRUCache V) (key : String) (v : V) (content : String)
    (now : Int) : LRUCache V :=
  let entries₁ :=
    if cache.entries.length ≥ cache.maxSize then
      match cache.entries with
      | [] => cache.entries
      | (k0, _) :: _ => if k0 = "" then cache.entries else assocDelete cache.entries k0
    else cache.entries
  { cache with
      entries := assocSet entries₁ key ⟨v, now, lruHash content, 1⟩ }

/-- C1, claim as stated (for reference): for every `key`, `contentA ≠ contentB`,
`set(key, v, contentA)` then `get(key, contentB)` returns a miss. This fails:
`get`'s content check `contentForValidation && hash(...) !== entry.contentHash`
is skipped entirely when `contentB` is the (falsy) empty string, so the stale
value is returned as a hit. Here `contentA = "a" ≠ "" = contentB`, yet the get
is a hit. -/
theorem cache_content_sensitivity_counterexample :
    ("a" ≠ "") ∧
      (cacheGet (cacheSet ⟨[], 100, 1800000⟩ "k" (0 : Nat) "a" 0) "k" 0 (some "")).1
        = some 0 := by
  constructor
  · decide
  · rfl

/-- C1 amended: `set(key, v, contentA)` followed by `get(key, contentB)` is a
miss whenever `contentB` is non-empty and its hash differs from the hash of
`contentA` (the hash reads only the first 1000 code units, so distinct contents
with equal hashes — or an empty `contentB` — are hits, not misses). -/
theorem cache_content_sensitivity_amended {V : Type} (cache : LRUCache V) (key : String)
    (v : V) (cA cB : String) (now now' : Int) (hB : cB ≠ "")
    (hh : lruHash cB ≠ lruHash cA) :
    (cacheGet (cacheSet cache key v cA now) key now' (some cB)).1 = none := by
  unfold cacheSet cacheGet
  rw [assocFind_set]
  simp [hB, hh]

/-- Witness for C1's amended theorem at a concrete input. -/
theorem cache_content_sensitivity_witness :
    (("b" : String) ≠ "" ∧ lruHash "b" ≠ lruHash "a") ∧
      (cacheGet (cacheSet ⟨[], 100, 1800000⟩ "k" (0 : Nat) "a" 0) "k" 0 (some "b")).1
        = none :=
  ⟨⟨by decide, by decide⟩,
    cache_content_sensitivity_amended ⟨[], 100, 1800000⟩ "k" 0 "a" "b" 0 0
      (by decide) (by decide)⟩

/-! ### Circuit breaker and retry (src/services/aiService.ts:15-63, 154-187) -/

def CIRCUIT_BREAKER_THRESHOLD : Nat := 5

def CIRCUIT_BREAKER_RESET_MS : Int := 60000

def MAX_RETRIES : Nat := 3

def RETRY_BACKOFF_MS : ℚ := 1000

/-- `CircuitBreakerState` (src/services/aiService.ts:25-29). -/
structure CircuitBreakerState where
  failures : Nat
  lastFailure : Int
  isOpen : Bool
deriving DecidableEq

/-- `recordFailure` (src/services/aiService.ts:40-48): bump the count, stamp the
time, and open the breaker once the count reaches the threshold. -/
def recordFailure (cb : CircuitBreakerState) (now : Int) : CircuitBreakerState :=
  { failures := cb.failures + 1
    lastFailure := now
    isOpen := if cb.failures + 1 ≥ CIRCUIT_BREAKER_THRESHOLD then true else cb.isOpen }

/-- `recordSuccess` (src/services/aiService.ts:50-54). -/
def recordSuccess (cb : CircuitBreakerState) : CircuitBreakerState :=
  { cb with failures := 0, isOpen := false }

/-- `isCircuitOpen` (src/services/aiService.ts:56-63): when the breaker is open
and the cooldown has elapsed it is mutated (closed, failure count halved)
before the flag is returned. Returns the answer and the updated state. -/
def isCircuitOpenStep (cb : CircuitBreakerState) (now : Int) : Bool × CircuitBreakerState :=
  if cb.isOpen && decide (now - cb.lastFailure > CIRCUIT_BREAKER_RESET_MS) then
    (false, { cb with isOpen := false, failures := cb.failures / 2 })
  else (cb.isOpen, cb)

/-- `String.prototype.startsWith` on code-unit lists. -/
def listStartsWith : List Char → List Char → Bool
  | _, [] => true
  | [], _ :: _ => false
  | c :: cs, p :: ps => decide (c = p) && listStartsWith cs ps

/-- `String.prototype.includes` on code-unit lists. -/
def listContains : List Char → List Char → Bool
  | [], pat => pat.isEmpty
  | c :: cs, pat => listStartsWith (c :: cs) pat || listContains cs pat

/-- JavaScript `s.includes(pat)`. -/
def includesJS (s pat : String) : Bool :=
  listContains s.data pat.data

/-- The non-retryable test of `withRetry` (src/services/aiService.ts:173):
`message.includes('invalid') || message.includes('quota')`. -/
def nonRetryableB (message : String) : Bool :=
  includesJS message "invalid" || includesJS message "quota"

/-- Observable outcome of one `withRetry` call: the returned value or thrown
error, the circuit breaker state afterwards, how many times the wrapped
operation `fn` was invoked, and the backoff delays that were slept. -/
structure RetryResult (V : Type) where
  result : Except String V
  cb : CircuitBreakerState
  calls : Nat
  delays : List ℚ

/-- The `for (attempt = 0; attempt < maxRetries; attempt++)` loop of `withRetry`
(src/services/aiService.ts:163-186). `fuel` is `maxRetries - i`; `outcomes i`
is what the `i`-th invocation of `fn` does; `jitter i` is that iteration's
`Math.random() * 500` draw; `recordNow` is `Date.now()` at failure recording. -/
def retryLoop {V : Type} (outcomes : Nat → Except String V) (jitter : Nat → ℚ)
    (recordNow : Int) :
    Nat → Nat → CircuitBreakerState → List ℚ → Option String → RetryResult V
  | 0, i, cb, delays, lastErr =>
    ⟨.error (lastErr.getD "null"), recordFailure cb recordNow, i, delays⟩
  | fuel + 1, i, cb, delays, lastErr =>
    match outcomes i with
    | .ok v => ⟨.ok v, recordSuccess cb, i + 1, delays⟩
    | .error e =>
      if nonRetryableB e then
        ⟨.error e, recordFailure cb recordNow, i + 1, delays⟩
      else if 0 < fuel then
        retryLoop outcomes jitter recordNow fuel (i + 1) cb
          (delays ++ [RETRY_BACKOFF_MS * 2 ^ i + jitter i]) (some e)
      else
        retryLoop outcomes jitter recordNow fuel (i + 1) cb delays (some e)

/-- `withRetry` (src/services/aiService.ts:154-187): consult the breaker, then
run the attempt loop. -/
def withRetry {V : Type} (provider : String) (outcomes : Nat → Except String V)
    (jitter : Nat → ℚ) (cb : CircuitBreakerState) (entryNow recordNow : Int)
    (maxRetries : Nat) : RetryResult V :=
  let check := isCircuitOpenStep cb entryNow
  if check.1 then
    ⟨.error ("Service temporarily unavailable for " ++ provider ++
        ". Please try again shortly."), check.2, 0, []⟩
  else
    retryLoop outcomes jitter recordNow maxRetries 0 check.2 [] none

theorem recordFailure_failures (cb : CircuitBreakerState) (t : Int) :
    (recordFailure cb t).failures = cb.failures + 1 := rfl

theorem recordFailure_lastFailure (cb : CircuitBreakerState) (t : Int) :
    (recordFailure cb t).lastFailure = t := rfl

theorem recordFailure_isOpen_of_threshold (cb : CircuitBreakerState) (t : Int)
    (h : cb.failures + 1 ≥ CIRCUIT_BREAKER_THRESHOLD) :
    (recordFailure cb t).isOpen = true := by
  simp [recordFailure, h]

/-- C2 (confirmed): after `CIRCUIT_BREAKER_THRESHOLD = 5` consecutive terminal
failures are recorded for a provider, a call made while the cooldown has not
elapsed fails immediately with the "Service temporarily unavailable" error and
invokes the wrapped operation zero times (no network I/O). -/
theorem circuit_breaker_fail_fast {V : Type} (cb0 : CircuitBreakerState)
    (t1 t2 t3 t4 t5 entryNow recordNow : Int) (provider : String)
    (outcomes : Nat → Except String V) (jitter : Nat → ℚ) (maxRetries : Nat)
    (hcool : entryNow - t5 ≤ CIRCUIT_BREAKER_RESET_MS) :
    (withRetry provider outcomes jitter
        (recordFailure (recordFailure (recordFailure (recordFailure
          (recordFailure cb0 t1) t2) t3) t4) t5) entryNow recordNow maxRetries).result
      = .error ("Service temporarily unavailable for " ++ provider ++
          ". Please try again shortly.") ∧
    (withRetry provider outcomes jitter
        (recordFailure (recordFailure (recordFailure (recordFailure
          (recordFailure cb0 t1) t2) t3) t4) t5) entryNow recordNow maxRetries).calls = 0 := by
  set cb5 := recordFailure (recordFailure (recordFailure (recordFailure
    (recordFailure cb0 t1) t2) t3) t4) t5 with hcb5
  have hopen : cb5.isOpen = true := by
    apply recordFailure_isOpen_of_threshold
    simp [recordFailure_failures, CIRCUIT_BREAKER_THRESHOLD]
  have hlast : cb5.lastFailure = t5 := recordFailure_lastFailure _ _
  have hcheck : (isCircuitOpenStep cb5 entryNow).1 = true := by
    unfold isCircuitOpenStep
    rw [hopen, hlast]
    have : ¬(entryNow - t5 > CIRCUIT_BREAKER_RESET_MS) := by omega
    simp [this]
  unfold withRetry
  simp [hcheck]

/-- Witness for C2 at a concrete input: a fresh breaker, five failures at
times 0..4, a call at time 100 (cooldown not elapsed). -/
theorem circuit_breaker_fail_fast_witness :
    ((100 : Int) - 4 ≤ CIRCUIT_BREAKER_RESET_MS) ∧
    (withRetry "openai" (fun _ => (.ok 7 : Except String Nat)) (fun _ => 0)
        (recordFailure (recordFailure (recordFailure (recordFailure
          (recordFailure ⟨0, 0, false⟩ 0) 1) 2) 3) 4) 100 100 MAX_RETRIES).calls = 0 :=
  ⟨by decide,
    (circuit_breaker_fail_fast ⟨0, 0, false⟩ 0 1 2 3 4 100 100 "openai"
      (fun _ => (.ok 7 : Except String Nat)) (fun _ => 0) MAX_RETRIES (by decide)).2⟩

/-- C3, refuting the claim as stated: breaker open with 5 failures at time 0;
at time 60001 the cooldown (60s) has elapsed. A call is made whose attempts
all fail with a retryable error — the "trial call" fails. The claim says the
breaker then reopens; in the code `isCircuitOpen` had already closed it and
halved the count to 2, and the terminal failure only raises it to 3 < 5, so
the breaker stays closed (and all 3 retry attempts ran, not one trial). -/
theorem circuit_breaker_halfopen_counterexample :
    (withRetry "gemini" (fun _ => (.error "boom" : Except String Nat)) (fun _ => 0)
        ⟨5, 0, true⟩ 60001 70000 MAX_RETRIES).cb.isOpen = false ∧
    (withRetry "gemini" (fun _ => (.error "boom" : Except String Nat)) (fun _ => 0)
        ⟨5, 0, true⟩ 60001 70000 MAX_RETRIES).cb.failures = 3 ∧
    (withRetry "gemini" (fun _ => (.error "boom" : Except String Nat)) (fun _ => 0)
        ⟨5, 0, true⟩ 60001 70000 MAX_RETRIES).calls = 3 := by
  refine ⟨?_, ?_, ?_⟩ <;> rfl

/-- C3 amended: once the breaker is open and the cooldown has elapsed, the next
breaker check closes it outright with the failure count halved (there is no
single-trial half-open state). A successful call then resets the count to 0
and leaves the breaker closed; a terminal failure sets the count to
`failures/2 + 1` and reopens the breaker only if that reaches the threshold
again (with the default threshold 5 and count 5, `5/2 + 1 = 3 < 5`, so a
failed trial does not reopen it). -/
theorem circuit_breaker_halfopen_amended (cb : CircuitBreakerState) (now : Int)
    (hopen : cb.isOpen = true)
    (helapsed : now - cb.lastFailure > CIRCUIT_BREAKER_RESET_MS) :
    isCircuitOpenStep cb now
      = (false, { cb with isOpen := false, failures := cb.failures / 2 }) ∧
    (∀ (V : Type) (v : V) (provider : String) (outcomes : Nat → Except String V)
        (jitter : Nat → ℚ) (recordNow : Int) (maxRetries : Nat),
      outcomes 0 = .ok v → 0 < maxRetries →
      (withRetry provider outcomes jitter cb now recordNow maxRetries).result = .ok v ∧
      (withRetry provider outcomes jitter cb now recordNow maxRetries).cb.failures = 0 ∧
      (withRetry provider outcomes jitter cb now recordNow maxRetries).cb.isOpen = false ∧
      (withRetry provider outcomes jitter cb now recordNow maxRetries).calls = 1) ∧
    (∀ (provider : String) (m : Nat → String) (jitter : Nat → ℚ) (recordNow : Int),
      (∀ i, nonRetryableB (m i) = false) →
      (withRetry provider (fun i => (.error (m i) : Except String Nat)) jitter cb now
          recordNow MAX_RETRIES).cb.failures = cb.failures / 2 + 1 ∧
      (withRetry provider (fun i => (.error (m i) : Except String Nat)) jitter cb now
          recordNow MAX_RETRIES).cb.isOpen
        = decide (cb.failures / 2 + 1 ≥ CIRCUIT_BREAKER_THRESHOLD)) := by
  have hstep : isCircuitOpenStep cb now
      = (false, { cb with isOpen := false, failures := cb.failures / 2 }) := by
    unfold isCircuitOpenStep
    simp [hopen, helapsed]
  refine ⟨hstep, ?_, ?_⟩
  · intro V v provider outcomes jitter recordNow maxRetries hout hpos
    unfold withRetry
    rw [hstep]
    simp only [if_false, Bool.false_eq_true]
    obtain ⟨k, hk⟩ : ∃ k, maxRetries = k + 1 := ⟨maxRetries - 1, by omega⟩
    subst hk
    simp [retryLoop, hout, recordSuccess]
  · intro provider m jitter recordNow hm
    unfold withRetry
    rw [hstep]
    simp only [if_false, Bool.false_eq_true]
    show (retryLoop _ _ _ (2 + 1) 0 _ [] none).cb.failures = _ ∧
      (retryLoop _ _ _ (2 + 1) 0 _ [] none).cb.isOpen = _
    simp only [retryLoop, hm 0, hm 1, hm 2, if_false, Bool.false_eq_true,
      Nat.zero_add, recordFailure]
    constructor
    · rfl
    · by_cases h5 : cb.failures / 2 + 1 ≥ CIRCUIT_BREAKER_THRESHOLD <;> simp [h5]

/-- Witness for C3's amended theorem at a concrete input: breaker `⟨5, 0, true⟩`,
checked at time 60001. -/
theorem circuit_breaker_halfopen_witness :
    ((⟨5, 0, true⟩ : CircuitBreakerState).isOpen = true ∧
      (60001 : Int) - (⟨5, 0, true⟩ : CircuitBreakerState).lastFailure
        > CIRCUIT_BREAKER_RESET_MS) ∧
    isCircuitOpenStep ⟨5, 0, true⟩ 60001 = (false, ⟨2, 0, false⟩) :=
  ⟨⟨by decide, by decide⟩,
    (circuit_breaker_halfopen_amended ⟨5, 0, true⟩ 60001 (by decide) (by decide)).1⟩

/-- C4 (confirmed): with the breaker closed, a call whose wrapped operation
fails with a retryable error on every attempt performs exactly
`MAX_RETRIES = 3` invocations, propagates the last error, sleeps
`RETRY_BACKOFF_MS * 2^attempt + jitter attempt` (jitter is
`Math.random() * 500 ∈ [0, 500)`) after each non-final attempt, and the
inter-attempt delays are non-decreasing. -/
theorem retry_bound_and_backoff {V : Type} (provider : String) (m : Nat → String)
    (jitter : Nat → ℚ) (cb : CircuitBreakerState) (entryNow recordNow : Int)
    (hopen : (isCircuitOpenStep cb entryNow).1 = false)
    (hjit : ∀ i, 0 ≤ jitter i ∧ jitter i < 500)
    (hm : ∀ i, nonRetryableB (m i) = false) :
    (withRetry provider (fun i => (.error (m i) : Except String V)) jitter cb entryNow
        recordNow MAX_RETRIES).calls = MAX_RETRIES ∧
    (withRetry provider (fun i => (.error (m i) : Except String V)) jitter cb entryNow
        recordNow MAX_RETRIES).result = .error (m 2) ∧
    (withRetry provider (fun i => (.error (m i) : Except String V)) jitter cb entryNow
        recordNow MAX_RETRIES).delays
      = [RETRY_BACKOFF_MS * 2 ^ 0 + jitter 0, RETRY_BACKOFF_MS * 2 ^ 1 + jitter 1] ∧
    List.Chain' (· ≤ ·)
      (withRetry provider (fun i => (.error (m i) : Except String V)) jitter cb entryNow
        recordNow MAX_RETRIES).delays := by
  have hrun : withRetry provider (fun i => (.error (m i) : Except String V)) jitter cb
      entryNow recordNow MAX_RETRIES
      = ⟨.error (m 2), recordFailure (isCircuitOpenStep cb entryNow).2 recordNow, 3,
          [RETRY_BACKOFF_MS * 2 ^ 0 + jitter 0, RETRY_BACKOFF_MS * 2 ^ 1 + jitter 1]⟩ := by
    unfold withRetry
    simp only [hopen, if_false, Bool.false_eq_true]
    show retryLoop _ _ _ (2 + 1) 0 _ [] none = _
    simp [retryLoop, hm 0, hm 1, hm 2]
  rw [hrun]
  refine ⟨rfl, rfl, rfl, ?_⟩
  have h0 := hjit 0
  have h1 := hjit 1
  simp only [List.chain'_cons, List.chain'_singleton, and_true]
  have : (RETRY_BACKOFF_MS : ℚ) = 1000 := rfl
  rw [this]
  norm_num
  linarith [h0.1, h0.2, h1.1]

/-- Witness for C4 at a concrete input: closed breaker, constant retryable
error "boom", zero jitter. -/
theorem retry_bound_and_backoff_witness :
    ((isCircuitOpenStep ⟨0, 0, false⟩ 0).1 = false ∧ nonRetryableB "boom" = false) ∧
    (withRetry "openai" (fun _ => (.error "boom" : Except String Nat)) (fun _ => 0)
        ⟨0, 0, false⟩ 0 0 MAX_RETRIES).calls = MAX_RETRIES :=
  ⟨⟨by decide, by decide⟩,
    (retry_bound_and_backoff "openai" (fun _ => "boom") (fun _ => 0) ⟨0, 0, false⟩ 0 0
      (by decide) (fun _ => ⟨le_refl 0, by norm_num⟩)
      (fun _ => (by decide : nonRetryableB "boom" = false))).1⟩

/-! ### Streaming progress callbacks (src/services/aiService.ts:193-402, 640-725) -/

/-- The `onStream` invocations of the Gemini streaming branch of
`callGenericChatApi` (src/services/aiService.ts:206-224) on a run that
consumes `chunks` and completes: `chunkCount` increments per chunk and
progress is `Math.min(chunkCount * 10, 95)`, followed by a final
`('', 100, 'complete')`. (The OpenAI / Anthropic / OpenRouter branches are
identical in shape with increments 5 / 3 / 4 capped at 95.) -/
def geminiStreamCalls : Nat → List String → List (String × Nat × String)
  | _, [] => [("", 100, "complete")]
  | chunkCount, t :: ts =>
    (t, min ((chunkCount + 1) * 10) 95, "generating") :: geminiStreamCalls (chunkCount + 1) ts

/-- The progress components of a callback invocation sequence. -/
def progressOf (calls : List (String × Nat × String)) : List Nat :=
  calls.map fun e => e.2.1

/-- The `onStream` invocations of `generateQuizAndMetadata`
(src/services/aiService.ts:640-725) on the non-grounding streaming path with a
cache miss and a single successful attempt: `('', 5, 'preparing')`, then the
inner `callGenericChatApi` invocations (ending in its own
`('', 100, 'complete')`), then `('', 90, 'parsing')` and
`('', 100, 'complete')`. -/
def quizStreamCalls (chunks : List String) : List (String × Nat × String) :=
  ("", 5, "preparing") :: (geminiStreamCalls 0 chunks
    ++ [("", 90, "parsing"), ("", 100, "complete")])

theorem geminiStreamCalls_ne_nil (k : Nat) (chunks : List String) :
    geminiStreamCalls k chunks ≠ [] := by
  cases chunks <;> simp [geminiStreamCalls]

theorem progressOf_gemini_count (k : Nat) (chunks : List String) :
    (progressOf (geminiStreamCalls k chunks)).count 100 = 1 := by
  induction chunks generalizing k with
  | nil => rfl
  | cons t ts ih =>
    show List.count 100 (min ((k + 1) * 10) 95 :: progressOf (geminiStreamCalls (k + 1) ts)) = 1
    rw [List.count_cons]
    have hne : ¬(min ((k + 1) * 10) 95 = 100) := by
      have := Nat.min_le_right ((k + 1) * 10) 95
      omega
    simp [ih (k + 1), hne]

theorem progressOf_gemini_getLast (k : Nat) (chunks : List String) :
    (progressOf (geminiStreamCalls k chunks)).getLast? = some 100 := by
  induction chunks generalizing k with
  | nil => rfl
  | cons t ts ih =>
    show (min ((k + 1) * 10) 95 :: progressOf (geminiStreamCalls (k + 1) ts)).getLast? = _
    cases h : progressOf (geminiStreamCalls (k + 1) ts) with
    | nil =>
      exfalso
      have hne := geminiStreamCalls_ne_nil (k + 1) ts
      rw [progressOf, List.map_eq_nil_iff] at h
      exact hne h
    | cons a l =>
      rw [List.getLast?_cons_cons]
      have hih := ih (k + 1)
      rw [h] at hih
      exact hih

theorem progressOf_gemini_head (k : Nat) (chunks : List String) :
    ∃ x, (progressOf (geminiStreamCalls k chunks)).head? = some x
      ∧ min ((k + 1) * 10) 95 ≤ x := by
  cases chunks with
  | nil =>
    refine ⟨100, rfl, ?_⟩
    have := Nat.min_le_right ((k + 1) * 10) 95
    omega
  | cons t ts => exact ⟨min ((k + 1) * 10) 95, rfl, le_refl _⟩

theorem progressOf_gemini_chain (k : Nat) (chunks : List String) :
    List.Chain' (· ≤ ·) (progressOf (geminiStreamCalls k chunks)) := by
  induction chunks generalizing k with
  | nil => simp [geminiStreamCalls, progressOf]
  | cons t ts ih =>
    show List.Chain' (· ≤ ·) (min ((k + 1) * 10) 95 :: progressOf (geminiStreamCalls (k + 1) ts))
    rw [List.chain'_cons']
    refine ⟨?_, ih (k + 1)⟩
    intro y hy
    obtain ⟨x, hx, hxle⟩ := progressOf_gemini_head (k + 1) ts
    rw [hx] at hy
    have hxy : x = y := Option.some.inj hy
    have hmono : min ((k + 1) * 10) 95 ≤ min ((k + 1 + 1) * 10) 95 :=
      min_le_min (by omega) (le_refl 95)
    omega

theorem progressOf_quiz_eq (chunks : List String) :
    progressOf (quizStreamCalls chunks)
      = 5 :: (progressOf (geminiStreamCalls 0 chunks) ++ [90, 100]) := by
  simp [progressOf, quizStreamCalls]

/-- C5, refuting the claim as stated: a streamed `generateQuizAndMetadata`
call with one chunk drives its callback with progress
`[5, 10, 100, 90, 100]` — the value 100 is delivered twice (once by the inner
`callGenericChatApi` completion and once by `generateQuizAndMetadata` itself)
and the sequence decreases from 100 to 90 ('parsing'), so it is not
monotonically non-decreasing. -/
theorem streaming_progress_counterexample :
    progressOf (quizStreamCalls ["x"]) = [5, 10, 100, 90, 100] ∧
    (progressOf (quizStreamCalls ["x"])).count 100 = 2 ∧
    ¬ List.Chain' (· ≤ ·) (progressOf (quizStreamCalls ["x"])) := by
  refine ⟨rfl, rfl, ?_⟩
  intro hchain
  have hchain' : List.Chain' (· ≤ ·) [5, 10, 100, 90, 100] := hchain
  simp only [List.chain'_cons, List.chain'_singleton, and_true] at hchain'
  omega

/-- C5 amended: within a single streaming `callGenericChatApi` invocation that
completes without a retry, the progress sequence is monotonically
non-decreasing and 100 is delivered exactly once, as its final value; but the
end-to-end callback sequence of `generateQuizAndMetadata` then appends
90 ('parsing') and a second 100 ('complete') after the inner 100, so for that
call 100 is delivered exactly twice and the sequence is not monotone. -/
theorem streaming_progress_amended (chunks : List String) :
    List.Chain' (· ≤ ·) (progressOf (geminiStreamCalls 0 chunks)) ∧
    (progressOf (geminiStreamCalls 0 chunks)).count 100 = 1 ∧
    (progressOf (geminiStreamCalls 0 chunks)).getLast? = some 100 ∧
    (progressOf (quizStreamCalls chunks)).count 100 = 2 ∧
    ¬ List.Chain' (· ≤ ·) (progressOf (quizStreamCalls chunks)) := by
  refine ⟨progressOf_gemini_chain 0 chunks, progressOf_gemini_count 0 chunks,
    progressOf_gemini_getLast 0 chunks, ?_, ?_⟩
  · rw [progressOf_quiz_eq, List.count_cons, List.count_append,
      progressOf_gemini_count 0 chunks]
    decide
  · intro hchain
    rw [progressOf_quiz_eq, ← List.cons_append, List.chain'_append] at hchain
    obtain ⟨-, -, hglue⟩ := hchain
    have hlast : (5 :: progressOf (geminiStreamCalls 0 chunks)).getLast? = some 100 := by
      cases h : progressOf (geminiStreamCalls 0 chunks) with
      | nil =>
        exfalso
        have hne := geminiStreamCalls_ne_nil 0 chunks
        rw [progressOf, List.map_eq_nil_iff] at h
        exact hne h
      | cons a l =>
        rw [List.getLast?_cons_cons]
        have hih := progressOf_gemini_getLast 0 chunks
        rw [h] at hih
        exact hih
    have := hglue 100 hlast 90 rfl
    omega

/-! ### Durable draft store (src/services/persistenceService.ts)

The embedding models the IndexedDB object store as a list of records keyed by
`postId` (an upsert map), the pending-write buffer as an insertion-ordered
association list, and the batch timer as a Boolean. `JSON.stringify` is
modelled concretely, with object keys in field declaration order (in the
running system key order follows object insertion history; since the checksum
is computed and re-validated from the same stored object, a fixed order is
faithful). A field that is absent (`undefined`) is `none` and is skipped by
the serializer; an explicit `null` is `some none`. -/

def DB_VERSION : Nat := 2

def MAX_DRAFTS : Nat := 200

def DRAFT_TTL_MS : Int := 604800000

/-- `ToolIdea` (src/types): payload carried by drafts. -/
structure ToolIdea where
  title : String
  description : String
  icon : String
deriving DecidableEq

/-- `ContentHealth` (src/types): payload carried by drafts. -/
structure ContentHealth where
  score : Int
  readability : String
  seoGap : String
  missingTopics : List String
  internalLinkSuggestions : List String
deriving DecidableEq

/-- `DraftData` (src/services/persistenceService.ts:22-28): all fields
optional, two of them nullable. -/
structure DraftData where
  ideas : Option (List ToolIdea)
  health : Option (Option ContentHealth)
  selectedIdea : Option (Option ToolIdea)
  generatedQuizHtml : Option String
  suggestedContentUpdate : Option (Option String)
deriving DecidableEq

/-- `StoredDraft` (src/services/persistenceService.ts:30-35). -/
structure StoredDraft where
  postId : Nat
  data : DraftData
  updatedAt : Int
  version : Nat
  checksum : String
deriving DecidableEq

/-- `BatchedWrite` (src/services/persistenceService.ts:121-125). -/
structure BatchedWrite where
  postId : Nat
  data : DraftData
  timestamp : Int
deriving DecidableEq

/-- JSON string escaping (quote and backslash; the fields used by the
witnesses contain no control characters). -/
def jsonEscape (cs : List Char) : List Char :=
  cs.foldr (fun c acc =>
    (if c = '"' then ['\\', '"'] else if c = '\\' then ['\\', '\\'] else [c]) ++ acc) []

/-- A JSON string literal. -/
def jstr (s : String) : String :=
  "\"" ++ ⟨jsonEscape s.data⟩ ++ "\""

/-- A JSON array literal from already-serialized elements. -/
def jarr (xs : List String) : String :=
  "[" ++ String.intercalate "," xs ++ "]"

def stringifyToolIdea (i : ToolIdea) : String :=
  "\x7b" ++ jstr "title" ++ ":" ++ jstr i.title ++ "," ++
    jstr "description" ++ ":" ++ jstr i.description ++ "," ++
    jstr "icon" ++ ":" ++ jstr i.icon ++ "\x7d"

def stringifyHealth (h : ContentHealth) : String :=
  "\x7b" ++ jstr "score" ++ ":" ++ toString h.score ++ "," ++
    jstr "readability" ++ ":" ++ jstr h.readability ++ "," ++
    jstr "seoGap" ++ ":" ++ jstr h.seoGap ++ "," ++
    jstr "missingTopics" ++ ":" ++ jarr (h.missingTopics.map jstr) ++ "," ++
    jstr "internalLinkSuggestions" ++ ":" ++ jarr (h.internalLinkSuggestions.map jstr) ++
    "\x7d"

/-- The present fields of a `DraftData`, serialized in declaration order. -/
def stringifyDraftFields (d : DraftData) : List String :=
  (match d.ideas with
    | none => []
    | some xs => [jstr "ideas" ++ ":" ++ jarr (xs.map stringifyToolIdea)]) ++
  (match d.health with
    | none => []
    | some none => [jstr "health" ++ ":null"]
    | some (some h) => [jstr "health" ++ ":" ++ stringifyHealth h]) ++
  (match d.selectedIdea with
    | none => []
    | some none => [jstr "selectedIdea" ++ ":null"]
    | some (some i) => [jstr "selectedIdea" ++ ":" ++ stringifyToolIdea i]) ++
  (match d.generatedQuizHtml with
    | none => []
    | some s => [jstr "generatedQuizHtml" ++ ":" ++ jstr s]) ++
  (match d.suggestedContentUpdate with
    | none => []
    | some none => [jstr "suggestedContentUpdate" ++ ":null"]
    | some (some s) => [jstr "suggestedContentUpdate" ++ ":" ++ jstr s])

/-- `JSON.stringify(data)` for a `DraftData`. -/
def stringifyDraft (d : DraftData) : String :=
  "\x7b" ++ String.intercalate "," (stringifyDraftFields d) ++ "\x7d"

/-- `computeChecksum` (src/services/persistenceService.ts:101-110): rolling
hash of `JSON.stringify(data)`, rendered in base 36. -/
def computeChecksum (d : DraftData) : String :=
  toString36 (jsHashFold (stringifyDraft d).data 0)

/-- `validateChecksum` (src/services/persistenceService.ts:112-115): the rest
destructuring drops `postId`, `updatedAt`, `version` and `checksum`, so only
`data` is hashed. -/
def validateChecksum (s : StoredDraft) : Bool :=
  decide (computeChecksum s.data = s.checksum)

/-- The IndexedDB `store.put` upsert, keyed by `postId`. -/
def storePut (store : List StoredDraft) (rec : StoredDraft) : List StoredDraft :=
  if store.any (fun r => decide (r.postId = rec.postId)) then
    store.map (fun r => if r.postId = rec.postId then rec else r)
  else store ++ [rec]

/-- The IndexedDB `store.get`. -/
def storeGet (store : List StoredDraft) (postId : Nat) : Option StoredDraft :=
  store.find? fun r => decide (r.postId = postId)

/-- The IndexedDB `store.delete`. -/
def storeDelete (store : List StoredDraft) (postId : Nat) : List StoredDraft :=
  store.filter fun r => !(decide (r.postId = postId))

/-- The module state of persistenceService: pending-write buffer, batch-timer
flag, and the drafts object store. -/
structure PersistState where
  pending : List (Nat × BatchedWrite)
  batchScheduled : Bool
  store : List StoredDraft
deriving DecidableEq

/-- Field-wise merge `{...old, ...new}` of two partial drafts: fields present
in `new` overwrite, absent fields fall back to `old`. -/
def mergeDraft (old new : DraftData) : DraftData where
  ideas := match new.ideas with | some v => some v | none => old.ideas
  health := match new.health with | some v => some v | none => old.health
  selectedIdea := match new.selectedIdea with | some v => some v | none => old.selectedIdea
  generatedQuizHtml :=
    match new.generatedQuizHtml with | some v => some v | none => old.generatedQuizHtml
  suggestedContentUpdate :=
    match new.suggestedContentUpdate with
    | some v => some v | none => old.suggestedContentUpdate

/-- `scheduleBatch` (src/services/persistenceService.ts:158-161): no-op when a
timer is already pending. -/
def scheduleBatch (st : PersistState) : PersistState :=
  if st.batchScheduled then st else { st with batchScheduled := true }

/-- `saveDraft` (src/services/persistenceService.ts:223-235): merge with any
pending write for the key, stamp the time, schedule a flush. Performs no
physical write. -/
def saveDraft (st : PersistState) (postId : Nat) (d : DraftData) (now : Int) :
    PersistState :=
  let merged :=
    match assocFind st.pending postId with
    | some existing => mergeDraft existing.data d
    | none => d
  scheduleBatch { st with pending := assocSet st.pending postId ⟨postId, merged, now⟩ }

/-- `flushBatch` (src/services/persistenceService.ts:130-156): drain the
buffer, clear the timer, and `put` one `StoredDraft` per pending entry.
Returns the new state and the list of physical `put`s performed. -/
def flushBatch (st : PersistState) : PersistState × List StoredDraft :=
  if st.pending.isEmpty then (st, [])
  else
    let puts := st.pending.map fun p =>
      (⟨p.2.postId, p.2.data, p.2.timestamp, DB_VERSION, computeChecksum p.2.data⟩ :
        StoredDraft)
    ({ st with
        pending := []
        batchScheduled := false
        store := puts.foldl storePut st.store }, puts)

/-- `saveDraftImmediate` (src/services/persistenceService.ts:237-256): a single
synchronous `put`, bypassing the batch buffer. -/
def saveDraftImmediate (st : PersistState) (postId : Nat) (d : DraftData) (now : Int) :
    PersistState :=
  { st with store := storePut st.store ⟨postId, d, now, DB_VERSION, computeChecksum d⟩ }

/-- `deleteDraft` (src/services/persistenceService.ts:306-323). -/
def deleteDraft (st : PersistState) (postId : Nat) : PersistState :=
  { st with pending := assocDelete st.pending postId
            store := storeDelete st.store postId }

/-- `getDraft` (src/services/persistenceService.ts:258-304): pending buffer
first; on a durable read, a checksum mismatch or TTL expiry deletes the record
and reads as absent. -/
def getDraft (st : PersistState) (postId : Nat) (now : Int) :
    Option DraftData × PersistState :=
  match assocFind st.pending postId with
  | some pendingWrite => (some pendingWrite.data, st)
  | none =>
    match storeGet st.store postId with
    | none => (none, st)
    | some stored =>
      if !(validateChecksum stored) then (none, deleteDraft st postId)
      else if decide (now - stored.updatedAt > DRAFT_TTL_MS) then
        (none, deleteDraft st postId)
      else (some stored.data, st)

/-- Cursor order of the `updatedAt` index: ascending `updatedAt`, ties by the
primary key `postId`. -/
def ageKeyLe (a b : StoredDraft) : Bool :=
  decide (a.updatedAt < b.updatedAt) ||
    (decide (a.updatedAt = b.updatedAt) && decide (a.postId ≤ b.postId))

def insertByAge (r : StoredDraft) : List StoredDraft → List StoredDraft
  | [] => [r]
  | x :: xs => if ageKeyLe r x then r :: x :: xs else x :: insertByAge r xs

/-- The record sequence produced by an ascending cursor over the `updatedAt`
index. -/
def sortByAge (l : List StoredDraft) : List StoredDraft :=
  l.foldr insertByAge []

/-- `evictOldDrafts` (src/services/persistenceService.ts:167-217): if the
record count is within `MAX_DRAFTS`, delete exactly the records with
`updatedAt ≤ now - TTL`; otherwise delete the `count - MAX_DRAFTS + 10` oldest
records in index order, ignoring TTL. Returns the surviving records (in index
order in the over-capacity branch) and the eviction count. -/
def evictOldDrafts (store : List StoredDraft) (now : Int) : List StoredDraft × Nat :=
  let totalCount := store.length
  if totalCount ≤ MAX_DRAFTS then
    let cutoff := now - DRAFT_TTL_MS
    (store.filter fun r => !(decide (r.updatedAt ≤ cutoff)),
      (store.filter fun r => decide (r.updatedAt ≤ cutoff)).length)
  else
    let toEvict := totalCount - MAX_DRAFTS + 10
    ((sortByAge store).drop toEvict, toEvict)

/-- `runMaintenance` (src/services/persistenceService.ts:415-419): flush, then
evict. Returns the new state, the eviction count, and the reported `flushed`
count (the buffer size after the flush). -/
def runMaintenance (st : PersistState) (now : Int) : PersistState × Nat × Nat :=
  let st1 := (flushBatch st).1
  let ev := evictOldDrafts st1.store now
  ({ st1 with store := ev.1 }, ev.2, st1.pending.length)

theorem assocFind_none_has {K V : Type} [DecidableEq K] (m : List (K × V)) (k : K)
    (h : assocFind m k = none) : assocHas m k = false := by
  induction m with
  | nil => rfl
  | cons p m ih =>
    by_cases hp : p.1 = k
    · simp [assocFind, List.find?, hp] at h
    · simp only [assocFind, List.find?, hp, decide_eq_true_eq, decide_False] at h ih ⊢
      simp only [assocHas, List.any_cons, decide_eq_true_eq, hp, decide_False,
        Bool.false_or]
      exact ih (by simpa [assocFind] using h)

theorem assocHas_false_forall {K V : Type} [DecidableEq K] (m : List (K × V)) (k : K)
    (h : assocHas m k = false) : ∀ p ∈ m, p.1 ≠ k := by
  intro p hp hk
  have : assocHas m k = true := by
    unfold assocHas
    rw [List.any_eq_true]
    exact ⟨p, hp, by simp [hk]⟩
  rw [h] at this
  exact absurd this (by simp)

theorem assocSet_append {K V : Type} [DecidableEq K] (m : List (K × V)) (k : K) (v : V)
    (h : assocHas m k = false) : assocSet m k v = m ++ [(k, v)] := by
  unfold assocSet
  rw [h]
  simp

theorem assocSet_of_all_ne {K V : Type} [DecidableEq K] (m : List (K × V)) (k : K)
    (v w : V) (h : ∀ p ∈ m, p.1 ≠ k) :
    assocSet (m ++ [(k, v)]) k w = m ++ [(k, w)] := by
  unfold assocSet
  have hhas : assocHas (m ++ [(k, v)]) k = true := by
    unfold assocHas
    rw [List.any_eq_true]
    exact ⟨(k, v), by simp, by simp⟩
  rw [hhas]
  simp only [if_true, List.map_append]
  congr 1
  · have h1 : m.map (fun p => if p.1 = k then (k, w) else p) = m.map id :=
      List.map_congr_left (fun p hp => by simp [h p hp])
    rw [h1, List.map_id]
  · simp

theorem scheduleBatch_scheduled (st : PersistState) :
    (scheduleBatch st).batchScheduled = true := by
  unfold scheduleBatch
  by_cases h : st.batchScheduled <;> simp [h]

theorem scheduleBatch_pending (st : PersistState) :
    (scheduleBatch st).pending = st.pending := by
  unfold scheduleBatch
  by_cases h : st.batchScheduled <;> simp [h]

theorem scheduleBatch_store (st : PersistState) :
    (scheduleBatch st).store = st.store := by
  unfold scheduleBatch
  by_cases h : st.batchScheduled <;> simp [h]

/-- C6 (confirmed): two `saveDraft` calls for the same key landing in the same
batch window (no flush between them) leave a single pending entry for the key
— the field-wise merge with the second call's fields overwriting — perform no
physical write themselves, keep exactly one batch flush scheduled, and the
eventual flush performs exactly one `put` for that key, carrying the merged
payload and the second call's timestamp. -/
theorem draft_write_coalescence (st : PersistState) (key : Nat) (d1 d2 : DraftData)
    (t1 t2 : Int) (hfree : assocFind st.pending key = none)
    (hinv : ∀ p ∈ st.pending, p.2.postId = p.1) :
    (saveDraft st key d1 t1).batchScheduled = true ∧
    (saveDraft (saveDraft st key d1 t1) key d2 t2).batchScheduled = true ∧
    (saveDraft (saveDraft st key d1 t1) key d2 t2).store = st.store ∧
    (saveDraft (saveDraft st key d1 t1) key d2 t2).pending
      = st.pending ++ [(key, ⟨key, mergeDraft d1 d2, t2⟩)] ∧
    (flushBatch (saveDraft (saveDraft st key d1 t1) key d2 t2)).2.filter
        (fun r => decide (r.postId = key))
      = [⟨key, mergeDraft d1 d2, t2, DB_VERSION, computeChecksum (mergeDraft d1 d2)⟩] := by
  have hhas : assocHas st.pending key = false := assocFind_none_has _ _ hfree
  have hne : ∀ p ∈ st.pending, p.1 ≠ key := assocHas_false_forall _ _ hhas
  set st1 := saveDraft st key d1 t1 with hst1def
  have hpend1 : st1.pending = st.pending ++ [(key, ⟨key, d1, t1⟩)] := by
    rw [hst1def]
    unfold saveDraft
    rw [hfree]
    show (scheduleBatch { st with
        pending := assocSet st.pending key ⟨key, d1, t1⟩ }).pending = _
    rw [scheduleBatch_pending, assocSet_append _ _ _ hhas]
  have hsched1 : st1.batchScheduled = true := by
    rw [hst1def]
    unfold saveDraft
    rw [hfree]
    exact scheduleBatch_scheduled _
  have hstore1 : st1.store = st.store := by
    rw [hst1def]
    unfold saveDraft
    rw [hfree]
    exact scheduleBatch_store _
  have hfind1 : assocFind st1.pending key = some ⟨key, d1, t1⟩ := by
    rw [hpend1, ← assocSet_append _ _ _ hhas, assocFind_set]
  have hpend2 : (saveDraft st1 key d2 t2).pending
      = st.pending ++ [(key, ⟨key, mergeDraft d1 d2, t2⟩)] := by
    unfold saveDraft
    rw [hfind1]
    show (scheduleBatch { st1 with
        pending := assocSet st1.pending key ⟨key, mergeDraft d1 d2, t2⟩ }).pending = _
    rw [scheduleBatch_pending, hpend1]
    exact assocSet_of_all_ne st.pending key _ _ hne
  have hsched2 : (saveDraft st1 key d2 t2).batchScheduled = true := by
    unfold saveDraft
    rw [hfind1]
    exact scheduleBatch_scheduled _
  have hstore2 : (saveDraft st1 key d2 t2).store = st.store := by
    unfold saveDraft
    rw [hfind1]
    show (scheduleBatch { st1 with
        pending := assocSet st1.pending key ⟨key, mergeDraft d1 d2, t2⟩ }).store = _
    rw [scheduleBatch_store]
    exact hstore1
  refine ⟨hsched1, hsched2, hstore2, hpend2, ?_⟩
  unfold flushBatch
  rw [hpend2]
  have hnotempty : (st.pending
      ++ [(key, (⟨key, mergeDraft d1 d2, t2⟩ : BatchedWrite))]).isEmpty = false := by
    simp
  rw [hnotempty]
  simp only [Bool.false_eq_true, if_false, List.map_append, List.filter_append]
  have h1 : (st.pending.map fun p =>
      (⟨p.2.postId, p.2.data, p.2.timestamp, DB_VERSION, computeChecksum p.2.data⟩ :
        StoredDraft)).filter (fun r => decide (r.postId = key)) = [] := by
    rw [List.filter_eq_nil_iff]
    intro r hr
    rw [List.mem_map] at hr
    obtain ⟨p, hp, hrp⟩ := hr
    have : r.postId = p.1 := by rw [← hrp]; exact hinv p hp
    simp only [decide_eq_true_eq]
    rw [this]
    exact hne p hp
  rw [h1]
  simp

/-- Witness for C6 at a concrete input: empty buffer, `d1` sets `ideas`, `d2`
sets `generatedQuizHtml`; the single put carries both fields. -/
theorem draft_write_coalescence_witness :
    (assocFind ([] : List (Nat × BatchedWrite)) 7 = none) ∧
    (flushBatch (saveDraft (saveDraft ⟨[], false, []⟩ 7
          ⟨some [⟨"t", "d", "idea"⟩], none, none, none, none⟩ 1) 7
          ⟨none, none, none, some "<div/>", none⟩ 2)).2.filter
        (fun r => decide (r.postId = 7))
      = [⟨7, ⟨some [⟨"t", "d", "idea"⟩], none, none, some "<div/>", none⟩, 2, DB_VERSION,
          computeChecksum ⟨some [⟨"t", "d", "idea"⟩], none, none, some "<div/>", none⟩⟩] :=
  ⟨rfl,
    (draft_write_coalescence ⟨[], false, []⟩ 7
      ⟨some [⟨"t", "d", "idea"⟩], none, none, none, none⟩
      ⟨none, none, none, some "<div/>", none⟩ 1 2 rfl (by intro p hp; cases hp)).2.2.2.2⟩

theorem storeGet_delete (store : List StoredDraft) (postId : Nat) :
    storeGet (storeDelete store postId) postId = none := by
  unfold storeGet storeDelete
  induction store with
  | nil => rfl
  | cons r store ih =>
    by_cases hr : r.postId = postId <;> simp [List.filter, hr, List.find?, ih]

/-- C7 (confirmed). Two parts. (1) The checksum covers the semantic payload
only: validation is insensitive to `postId`, `updatedAt` and `version`.
(2) If a stored draft's payload is corrupted in a single code unit of its
serialized form (its checksum still being that of the original payload), and
no pending write shadows the key, then `getDraft` returns `none` and deletes
the record — the corrupted payload is never returned. -/
theorem draft_checksum_integrity :
    (∀ s1 s2 : StoredDraft, s1.data = s2.data → s1.checksum = s2.checksum →
      validateChecksum s1 = validateChecksum s2) ∧
    (∀ (st : PersistState) (postId : Nat) (d dCorrupt : DraftData) (updatedAt : Int)
        (version : Nat) (now : Int) (xs zs : List Char) (c c' : Char),
      assocFind st.pending postId = none →
      storeGet st.store postId
        = some ⟨postId, dCorrupt, updatedAt, version, computeChecksum d⟩ →
      (stringifyDraft d).data = xs ++ c :: zs →
      (stringifyDraft dCorrupt).data = xs ++ c' :: zs →
      c ≠ c' →
      (getDraft st postId now).1 = none ∧
      storeGet (getDraft st postId now).2.store postId = none) := by
  constructor
  · intro s1 s2 hdata hsum
    unfold validateChecksum
    rw [hdata, hsum]
  · intro st postId d dCorrupt updatedAt version now xs zs c c' hfree hget hd hdc hne
    have hsum : computeChecksum dCorrupt ≠ computeChecksum d := by
      unfold computeChecksum
      intro heq
      have hh := toString36_injective heq
      rw [hd, hdc] at hh
      exact jsHashFold_single_change xs zs c' c hne.symm hh
    have hval : validateChecksum
        (⟨postId, dCorrupt, updatedAt, version, computeChecksum d⟩ : StoredDraft)
        = false := by
      unfold validateChecksum
      simp [hsum]
    unfold getDraft
    rw [hfree, hget]
    simp only [hval, Bool.not_false, if_true]
    exact ⟨trivial, storeGet_delete _ _⟩

set_option maxRecDepth 16384 in
/-- Witness for C7 at a concrete input: the stored copy of
`{generatedQuizHtml: "a"}` has its payload byte `a` corrupted to `b`; the read
returns `none` and the record is deleted. -/
theorem draft_checksum_integrity_witness :
    ((stringifyDraft ⟨none, none, none, some "a", none⟩).data
        = "\x7b\"generatedQuizHtml\":\"".data ++ 'a' :: "\"\x7d".data ∧
      (stringifyDraft ⟨none, none, none, some "b", none⟩).data
        = "\x7b\"generatedQuizHtml\":\"".data ++ 'b' :: "\"\x7d".data) ∧
    (getDraft ⟨[], false,
        [⟨42, ⟨none, none, none, some "b", none⟩, 0, DB_VERSION,
          computeChecksum ⟨none, none, none, some "a", none⟩⟩]⟩ 42 0).1 = none :=
  ⟨⟨by decide, by decide⟩,
    ((draft_checksum_integrity.2 ⟨[], false,
        [⟨42, ⟨none, none, none, some "b", none⟩, 0, DB_VERSION,
          computeChecksum ⟨none, none, none, some "a", none⟩⟩]⟩ 42
        ⟨none, none, none, some "a", none⟩ ⟨none, none, none, some "b", none⟩ 0
        DB_VERSION 0 "\x7b\"generatedQuizHtml\":\"".data "\"\x7d".data 'a' 'b'
        rfl (by decide) (by decide) (by decide) (by decide)).1)⟩

theorem flushBatch_of_empty (st : PersistState) (h : st.pending = []) :
    flushBatch st = (st, []) := by
  unfold flushBatch
  rw [h]
  rfl

/-- A store of `MAX_DRAFTS + 10 = 210` drafts with increasing timestamps
`0..209` (record `i` has `postId = i`, `updatedAt = i`, empty payload). -/
def store210 : List StoredDraft :=
  (List.range 210).map fun i =>
    ⟨i, ⟨none, none, none, none, none⟩, (i : Int), DB_VERSION, ""⟩

set_option maxRecDepth 65536 in
/-- C8, refuting the claim as stated: at time `TTL + 31`, records `0..30` of
`store210` are older than the TTL. The store holds 210 > 200 records, so
`evictOldDrafts` takes the over-capacity branch, which evicts exactly the
`210 - 200 + 10 = 20` oldest records and never performs TTL eviction: records
`20..30` — 11 records whose age exceeds the TTL — survive the maintenance
pass, contradicting "evicts every record whose age exceeds the TTL". (Under
the claimed order, TTL eviction would first remove all 31 expired records,
leaving 179 ≤ 200, and no capacity eviction would occur at all.) -/
theorem maintenance_eviction_counterexample :
    store210.length = 210 ∧
    ((runMaintenance ⟨[], false, store210⟩ 604800031).1.store.filter
        (fun r => decide (604800031 - r.updatedAt > DRAFT_TTL_MS))).length = 11 := by
  constructor
  · decide
  · decide

/-- C8 amended: `runMaintenance` first flushes pending writes; then, because
the 210-record count exceeds the 200-draft cap, it skips TTL eviction entirely
and evicts exactly the `210 - 200 + 10 = 20` oldest records in `updatedAt`
index order (records older than the TTL may survive when more than 20 records
are expired — see the counterexample). The spec's concrete scenario still
holds: after inserting `MAX_DRAFTS + 10` drafts with increasing timestamps,
maintenance leaves `190 ≤ MAX_DRAFTS` drafts and the 10 (indeed 20) oldest are
gone. -/
theorem maintenance_eviction_amended (st : PersistState) (now : Int)
    (hpend : st.pending = [])
    (hlen : st.store.length = MAX_DRAFTS + 10)
    (hsorted : sortByAge st.store = st.store)
    (hids : (st.store.map (fun r => r.postId)).Nodup) :
    (runMaintenance st now).1.store = st.store.drop 20 ∧
    (runMaintenance st now).1.store.length = MAX_DRAFTS - 10 ∧
    (runMaintenance st now).2.1 = 20 ∧
    (∀ r ∈ st.store.take 10, ∀ q ∈ (runMaintenance st now).1.store,
      q.postId ≠ r.postId) := by
  have hflush : flushBatch st = (st, []) := flushBatch_of_empty st hpend
  have hover : ¬(st.store.length ≤ MAX_DRAFTS) := by
    rw [hlen]
    decide
  have hevict : evictOldDrafts st.store now = (st.store.drop 20, 20) := by
    unfold evictOldDrafts
    rw [if_neg hover, hsorted, hlen]
    rfl
  have hrun : runMaintenance st now = ({ st with store := st.store.drop 20 }, 20, 0) := by
    unfold runMaintenance
    rw [hflush]
    show ({ st with store := (evictOldDrafts st.store now).1 },
      (evictOldDrafts st.store now).2, st.pending.length) = _
    rw [hevict, hpend]
    rfl
  rw [hrun]
  refine ⟨rfl, ?_, rfl, ?_⟩
  · show (st.store.drop 20).length = MAX_DRAFTS - 10
    rw [List.length_drop, hlen]
    rfl
  · intro r hr q hq hqr
    have hsplit : st.store.map (fun x => x.postId)
        = (st.store.take 20).map (fun x => x.postId)
          ++ (st.store.drop 20).map (fun x => x.postId) := by
      rw [← List.map_append, List.take_append_drop]
    have hdisj : List.Disjoint ((st.store.take 20).map (fun x => x.postId))
        ((st.store.drop 20).map (fun x => x.postId)) := by
      have := hids
      rw [hsplit, List.nodup_append] at this
      exact this.2.2
    have hr20 : r ∈ st.store.take 20 := by
      have h1 : st.store.take 10 = (st.store.take 20).take 10 := by
        rw [List.take_take]
        norm_num
      rw [h1] at hr
      exact List.take_subset 10 _ hr
    have hrm : r.postId ∈ (st.store.take 20).map (fun x => x.postId) :=
      List.mem_map_of_mem _ hr20
    have hqm : r.postId ∈ (st.store.drop 20).map (fun x => x.postId) := by
      rw [← hqr]
      exact List.mem_map_of_mem _ hq
    exact hdisj hrm hqm

set_option maxRecDepth 65536 in
/-- Witness for C8's amended theorem at the concrete 210-draft store. -/
theorem maintenance_eviction_witness :
    (store210.length = MAX_DRAFTS + 10 ∧ sortByAge store210 = store210 ∧
      (store210.map (fun r => r.postId)).Nodup) ∧
    (runMaintenance ⟨[], false, store210⟩ 0).1.store.length = MAX_DRAFTS - 10 :=
  ⟨⟨by decide, by decide, by decide⟩,
    (maintenance_eviction_amended ⟨[], false, store210⟩ 0 rfl (by decide) (by decide)
      (by decide)).2.1⟩

/-! ### Application state reducer (src/context/AppContext.tsx)

The embedding carries the reducer-managed fields that the claims concern
(dashboard list state, modal state, status/error). The WordPress/AI provider
configuration, theme and theme-color fields are omitted; the reducer cases
that touch only those fields (`SET_THEME`, `SET_PROVIDER`, `SET_API_KEY`,
`SET_OPENROUTER_MODEL`, `VALIDATE_API_KEY_START`, `VALIDATE_API_KEY_RESULT`,
`SET_THEME_COLOR`) therefore act as the identity on the embedded fields,
exactly as in the source. -/

inductive Status where
  | idle
  | loading
  | success
  | error
deriving DecidableEq

inductive PostFilter where
  | all
  | withQuiz
  | withoutQuiz
deriving DecidableEq

/-- `WordPressPost` restricted to the fields the reducer and
`computeFilteredPosts` read (`title.rendered` and `content.rendered`
flattened; the optional `isAnalyzing` flag defaults to `false`). -/
structure WordPressPost where
  id : Nat
  titleRendered : String
  contentRendered : String
  hasOptimizerSnippet : Bool
  healthAnalysis : Option ContentHealth
  isAnalyzing : Bool
deriving DecidableEq

/-- The reducer-managed application state (src/context/AppContext.tsx:88-124),
restricted as described above. -/
structure AppState where
  status : Status
  error : Option String
  deletingPostId : Option Nat
  posts : List WordPressPost
  filteredPosts : List WordPressPost
  postSearchQuery : String
  postFilter : PostFilter
  setupRequired : Bool
  currentPage : Nat
  totalPages : Nat
  isLoadingMore : Bool
  isToolGenerationModalOpen : Bool
  activePostForModal : Option WordPressPost
  modalStatus : Status
  modalError : Option String
  toolIdeas : List ToolIdea
  contentHealth : Option ContentHealth
  selectedIdea : Option ToolIdea
  generatedQuizHtml : String
  suggestedContentUpdate : Option String
  manualShortcode : Option String
  isAnalyticsModalOpen : Bool
  activeToolIdForAnalytics : Option Nat
deriving DecidableEq

/-- `initialState` (src/context/AppContext.tsx:88-124), embedded fields. -/
def initialAppState : AppState where
  status := .idle
  error := none
  deletingPostId := none
  posts := []
  filteredPosts := []
  postSearchQuery := ""
  postFilter := .all
  setupRequired := false
  currentPage := 1
  totalPages := 1
  isLoadingMore := false
  isToolGenerationModalOpen := false
  activePostForModal := none
  modalStatus := .idle
  modalError := none
  toolIdeas := []
  contentHealth := none
  selectedIdea := none
  generatedQuizHtml := ""
  suggestedContentUpdate := none
  manualShortcode := none
  isAnalyticsModalOpen := false
  activeToolIdForAnalytics := none

/-- The reducer's action type (src/context/AppContext.tsx:130-164). Payload
components belonging to omitted state fields are dropped. -/
inductive AppAction where
  | startLoading
  | setError (msg : String)
  | clearError
  | reset
  | setTheme
  | setSetupRequired (b : Bool)
  | configureSuccess (posts : List WordPressPost) (totalPages : Nat)
  | setProvider
  | setApiKey
  | setOpenRouterModel
  | validateApiKeyStart
  | validateApiKeyResult
  | setPostSearchQuery (q : String)
  | setPostFilter (f : PostFilter)
  | loadMoreStart
  | loadMoreSuccess (posts : List WordPressPost) (currentPage : Nat)
  | startDeletingSnippet (postId : Nat)
  | deleteSnippetComplete (posts : List WordPressPost)
  | openToolModal (post : WordPressPost)
  | closeToolModal
  | setModalStatus (status : Status) (error : Option String)
  | getIdeasSuccess (ideas : List ToolIdea) (health : Option ContentHealth)
  | selectIdea (idea : ToolIdea)
  | generateEnhancedQuizStart
  | generateEnhancedQuizSuccess (html : String) (contentUpdate : Option String)
  | insertSnippetSuccess (posts : List WordPressPost) (shortcode : String)
  | setThemeColor
  | restoreDraft (ideas : List ToolIdea) (health : Option ContentHealth)
      (selectedIdea : Option ToolIdea) (quizHtml : String) (contentUpdate : Option String)
  | startBackgroundAnalysis (postId : Nat)
  | completeBackgroundAnalysis (postId : Nat) (health : ContentHealth)
  | batchUpdatePosts (updates : List (Nat × ContentHealth))
  | openAnalyticsModal (toolId : Nat)
  | closeAnalyticsModal
  | streamUpdate
deriving DecidableEq

/-- JavaScript `s.trim()`: strip whitespace from both ends. -/
def trimJS (s : String) : String :=
  ⟨((s.data.dropWhile Char.isWhitespace).reverse.dropWhile Char.isWhitespace).reverse⟩

/-- JavaScript `s.toLowerCase()` (ASCII range, which is all the claims use). -/
def toLowerJS (s : String) : String :=
  ⟨s.data.map Char.toLower⟩

/-- `computeFilteredPosts` (src/context/AppContext.tsx:170-194): filter by
quiz presence, then by a case-insensitive search over title and content;
`if (searchQuery.trim())` treats the blank query as no search. -/
def computeFilteredPosts (posts : List WordPressPost) (searchQuery : String)
    (filter : PostFilter) : List WordPressPost :=
  let result :=
    match filter with
    | .withQuiz => posts.filter fun p => p.hasOptimizerSnippet
    | .withoutQuiz => posts.filter fun p => !p.hasOptimizerSnippet
    | .all => posts
  if trimJS searchQuery ≠ "" then
    let query := toLowerJS searchQuery
    result.filter fun p =>
      includesJS (toLowerJS p.titleRendered) query ||
        includesJS (toLowerJS p.contentRendered) query
  else result

/-- `appReducer` (src/context/AppContext.tsx:200-431). -/
def appReducer (state : AppState) (action : AppAction) : AppState :=
  match action with
  | .startLoading => { state with status := .loading, error := none }
  | .setError msg => { state with status := .error, error := some msg, isLoadingMore := false }
  | .clearError => { state with error := none }
  | .reset => initialAppState
  | .setTheme => state
  | .setSetupRequired b => { state with setupRequired := b, status := .idle }
  | .configureSuccess posts totalPages =>
    { state with
        status := .success
        posts := posts
        filteredPosts := computeFilteredPosts posts state.postSearchQuery state.postFilter
        totalPages := totalPages
        currentPage := 1
        setupRequired := false
        error := none }
  | .setProvider => state
  | .setApiKey => state
  | .setOpenRouterModel => state
  | .validateApiKeyStart => state
  | .validateApiKeyResult => state
  | .setPostSearchQuery q =>
    { state with
        postSearchQuery := q
        filteredPosts := computeFilteredPosts state.posts q state.postFilter }
  | .setPostFilter f =>
    { state with
        postFilter := f
        filteredPosts := computeFilteredPosts state.posts state.postSearchQuery f }
  | .loadMoreStart => { state with isLoadingMore := true }
  | .loadMoreSuccess posts currentPage =>
    { state with
        posts := state.posts ++ posts
        filteredPosts :=
          computeFilteredPosts (state.posts ++ posts) state.postSearchQuery state.postFilter
        currentPage := currentPage
        isLoadingMore := false }
  | .startDeletingSnippet postId => { state with deletingPostId := some postId }
  | .deleteSnippetComplete posts =>
    { state with
        posts := posts
        filteredPosts := computeFilteredPosts posts state.postSearchQuery state.postFilter
        deletingPostId := none
        currentPage := 1 }
  | .openToolModal post =>
    { state with
        isToolGenerationModalOpen := true
        activePostForModal := some post
        modalStatus := .idle
        modalError := none
        toolIdeas := []
        contentHealth := none
        selectedIdea := none
        generatedQuizHtml := ""
        suggestedContentUpdate := none
        manualShortcode := none }
  | .closeToolModal =>
    { state with
        isToolGenerationModalOpen := false
        activePostForModal := none
        modalStatus := .idle
        modalError := none }
  | .setModalStatus status err => { state with modalStatus := status, modalError := err }
  | .getIdeasSuccess ideas health =>
    { state with modalStatus := .success, toolIdeas := ideas, contentHealth := health }
  | .selectIdea idea => { state with selectedIdea := some idea }
  | .generateEnhancedQuizStart => { state with modalStatus := .loading, modalError := none }
  | .generateEnhancedQuizSuccess html contentUpdate =>
    { state with
        modalStatus := .success
        generatedQuizHtml := html
        suggestedContentUpdate := contentUpdate }
  | .insertSnippetSuccess posts shortcode =>
    { state with
        modalStatus := .success
        posts := posts
        filteredPosts := computeFilteredPosts posts state.postSearchQuery state.postFilter
        manualShortcode := some shortcode
        currentPage := 1 }
  | .setThemeColor => state
  | .restoreDraft ideas health selectedIdea quizHtml contentUpdate =>
    { state with
        modalStatus := .success
        toolIdeas := ideas
        contentHealth := health
        selectedIdea := selectedIdea
        generatedQuizHtml := quizHtml
        suggestedContentUpdate := contentUpdate }
  | .startBackgroundAnalysis postId =>
    { state with
        posts := state.posts.map fun p =>
          if p.id = postId then { p with isAnalyzing := true } else p }
  | .completeBackgroundAnalysis postId health =>
    { state with
        posts := state.posts.map fun p =>
          if p.id = postId then
            { p with isAnalyzing := false, healthAnalysis := some health }
          else p }
  | .batchUpdatePosts updates =>
    { state with
        posts := state.posts.map fun p =>
          match assocFind updates p.id with
          | some health => { p with healthAnalysis := some health, isAnalyzing := false }
          | none => p }
  | .openAnalyticsModal toolId =>
    { state with isAnalyticsModalOpen := true, activeToolIdForAnalytics := some toolId }
  | .closeAnalyticsModal =>
    { state with isAnalyticsModalOpen := false, activeToolIdForAnalytics := none }
  | .streamUpdate => state

/-! ### Background analysis scheduler (src/context/AppContext.tsx:800-829) -/

/-- An observable event of one scheduled item's processing: a dispatched
action, or the `console.warn` in the catch block. -/
inductive BgEvent where
  | dispatch (a : AppAction)
  | warnLog
deriving DecidableEq

/-- How one candidate's analysis can turn out: a valid draft-store hit, a
successful remote analysis, or a thrown error. -/
inductive AnalysisOutcome where
  | draftHit (health : ContentHealth)
  | success (health : ContentHealth)
  | failure

/-- The per-candidate control flow of `runBackgroundAnalysis`
(src/context/AppContext.tsx:808-828): dispatch `START_BACKGROUND_ANALYSIS`,
then either complete from the draft store, complete from the remote call, or —
on failure — only `console.warn('Background analysis failed silently', e)`;
the catch block dispatches nothing. -/
def runBackgroundAnalysisItem (postId : Nat) : AnalysisOutcome → List BgEvent
  | .draftHit health =>
    [.dispatch (.startBackgroundAnalysis postId),
      .dispatch (.completeBackgroundAnalysis postId health)]
  | .success health =>
    [.dispatch (.startBackgroundAnalysis postId),
      .dispatch (.completeBackgroundAnalysis postId health)]
  | .failure => [.dispatch (.startBackgroundAnalysis postId), .warnLog]

/-- Feed the dispatched actions of an event list through the reducer. -/
def dispatchAll (s : AppState) (events : List BgEvent) : AppState :=
  events.foldl (fun st e =>
    match e with
    | .dispatch a => appReducer st a
    | .warnLog => st) s

/-- C9, refuting the claim as stated: a post whose background analysis fails
is left with `isAnalyzing = true` — the catch block only logs, it dispatches
nothing, so the in-flight flag is never cleared. -/
theorem scheduler_failure_counterexample :
    (dispatchAll { initialAppState with
        posts := [⟨1, "t", "c", false, none, false⟩],
        filteredPosts := [⟨1, "t", "c", false, none, false⟩] }
      (runBackgroundAnalysisItem 1 .failure)).posts
      = [⟨1, "t", "c", false, none, true⟩] := by
  decide

/-- C9 amended: when an item's background analysis fails, the failure is
logged (`console.warn` occurs), no user-facing error state is produced
(`error`, `status`, `modalStatus` and `modalError` are untouched), but the
item's `isAnalyzing` flag is NOT cleared: the only dispatch is
`START_BACKGROUND_ANALYSIS`, so the item stays marked in-flight and is skipped
(not retried) by future scheduler passes. -/
theorem scheduler_failure_amended (s : AppState) (postId : Nat) :
    BgEvent.warnLog ∈ runBackgroundAnalysisItem postId .failure ∧
    (dispatchAll s (runBackgroundAnalysisItem postId .failure)).error = s.error ∧
    (dispatchAll s (runBackgroundAnalysisItem postId .failure)).status = s.status ∧
    (dispatchAll s (runBackgroundAnalysisItem postId .failure)).modalStatus
      = s.modalStatus ∧
    (dispatchAll s (runBackgroundAnalysisItem postId .failure)).modalError
      = s.modalError ∧
    (dispatchAll s (runBackgroundAnalysisItem postId .failure)).posts
      = s.posts.map fun p =>
          if p.id = postId then { p with isAnalyzing := true } else p := by
  refine ⟨by simp [runBackgroundAnalysisItem], ?_, ?_, ?_, ?_, ?_⟩ <;> rfl

/-- The three reducer cases that modify `posts` without recomputing
`filteredPosts`. -/
def skipsRecompute : AppAction → Bool
  | .startBackgroundAnalysis _ => true
  | .completeBackgroundAnalysis _ _ => true
  | .batchUpdatePosts _ => true
  | _ => false

/-- C10, refuting the claim as stated: starting from a state where the
derived view is consistent, `COMPLETE_BACKGROUND_ANALYSIS` rewrites the post
inside `posts` (attaching `healthAnalysis`) but leaves `filteredPosts` holding
the stale post object, so afterwards
`filteredPosts ≠ computeFilteredPosts(posts, postSearchQuery, postFilter)`. -/
theorem derived_view_consistency_counterexample :
    ({ initialAppState with
        posts := [⟨1, "t", "c", false, none, false⟩],
        filteredPosts := [⟨1, "t", "c", false, none, false⟩] } : AppState).filteredPosts
      = computeFilteredPosts [⟨1, "t", "c", false, none, false⟩] "" .all ∧
    (appReducer { initialAppState with
        posts := [⟨1, "t", "c", false, none, false⟩],
        filteredPosts := [⟨1, "t", "c", false, none, false⟩] }
      (.completeBackgroundAnalysis 1 ⟨50, "ok", "gap", [], []⟩)).filteredPosts
      ≠ computeFilteredPosts
          (appReducer { initialAppState with
              posts := [⟨1, "t", "c", false, none, false⟩],
              filteredPosts := [⟨1, "t", "c", false, none, false⟩] }
            (.completeBackgroundAnalysis 1 ⟨50, "ok", "gap", [], []⟩)).posts
          (appReducer { initialAppState with
              posts := [⟨1, "t", "c", false, none, false⟩],
              filteredPosts := [⟨1, "t", "c", false, none, false⟩] }
            (.completeBackgroundAnalysis 1 ⟨50, "ok", "gap", [], []⟩)).postSearchQuery
          (appReducer { initialAppState with
              posts := [⟨1, "t", "c", false, none, false⟩],
              filteredPosts := [⟨1, "t", "c", false, none, false⟩] }
            (.completeBackgroundAnalysis 1 ⟨50, "ok", "gap", [], []⟩)).postFilter := by
  constructor
  · decide
  · decide

/-- C10 amended: the invariant
`filteredPosts = computeFilteredPosts(posts, postSearchQuery, postFilter)` is
preserved by every reducer action except `START_BACKGROUND_ANALYSIS`,
`COMPLETE_BACKGROUND_ANALYSIS` and `BATCH_UPDATE_POSTS`, which update `posts`
without recomputing the derived view (it stays stale until the next
recomputing action). -/
theorem derived_view_consistency_amended (s : AppState) (a : AppAction)
    (hinv : s.filteredPosts = computeFilteredPosts s.posts s.postSearchQuery s.postFilter)
    (hskip : skipsRecompute a = false) :
    (appReducer s a).filteredPosts
      = computeFilteredPosts (appReducer s a).posts (appReducer s a).postSearchQuery
          (appReducer s a).postFilter := by
  cases a <;>
    first
      | exact hinv
      | rfl
      | exact absurd hskip (by simp [skipsRecompute])

/-- Witness for C10's amended theorem at a concrete input. -/
theorem derived_view_consistency_witness :
    (({ initialAppState with
          posts := [⟨1, "t", "c", false, none, false⟩],
          filteredPosts := [⟨1, "t", "c", false, none, false⟩] } : AppState).filteredPosts
        = computeFilteredPosts [⟨1, "t", "c", false, none, false⟩] "" .all ∧
      skipsRecompute (.setPostFilter .withQuiz) = false) ∧
    (appReducer { initialAppState with
        posts := [⟨1, "t", "c", false, none, false⟩],
        filteredPosts := [⟨1, "t", "c", false, none, false⟩] }
      (.setPostFilter .withQuiz)).filteredPosts
      = computeFilteredPosts
          (appReducer { initialAppState with
              posts := [⟨1, "t", "c", false, none, false⟩],
              filteredPosts := [⟨1, "t", "c", false, none, false⟩] }
            (.setPostFilter .withQuiz)).posts
          (appReducer { initialAppState with
              posts := [⟨1, "t", "c", false, none, false⟩],
              filteredPosts := [⟨1, "t", "c", false, none, false⟩] }
            (.setPostFilter .withQuiz)).postSearchQuery
          (appReducer { initialAppState with
              posts := [⟨1, "t", "c", false, none, false⟩],
              filteredPosts := [⟨1, "t", "c", false, none, false⟩] }
            (.setPostFilter .withQuiz)).postFilter :=
  ⟨⟨by decide, by decide⟩,
    derived_view_consistency_amended
      { initialAppState with
          posts := [⟨1, "t", "c", false, none, false⟩],
          filteredPosts := [⟨1, "t", "c", false, none, false⟩] }
      (.setPostFilter .withQuiz) (by decide) (by decide)⟩
